import Mathlib

/-!
Verification development for the streaming math-tutor chat client.

The embedding below follows the frontend sources:
  * `web/src/services/mathAPI.js` — stream transport (`createStreamConnection`,
    `processStream`) and event dispatcher (`handleStreamEvent`);
  * `web/src/components/ConversationalMathTutor/ChatInterface.jsx` —
    `buildConversationHistory`, `handleInternalSendMessage`, `handleInternalFeedback`;
  * `web/src/components/ConversationalMathTutor/SolutionDisplay.jsx` — the
    streaming session callbacks driving progress/steps/solution state;
  * `web/src/components/ConversationalMathTutor/index.jsx` — message store
    updates (`onSolutionComplete`, `handleFeedback`).

JavaScript strings are modelled by Lean `String`; the character-level helpers
(`splitLines`, `strDrop`, `jsTrim`, `isDataLine`) mirror `split('\n')`,
`slice(6)`, `trim()` and `startsWith('data: ')` and are written over `String.data`
so that every definition evaluates by kernel reduction.
-/

namespace MathTutorSpec

/-- JSON values, the shape of one parsed event envelope. -/
inductive Json where
  | null : Json
  | bool (b : Bool) : Json
  | num (n : Int) : Json
  | str (s : String) : Json
  | arr (elems : List Json) : Json
  | obj (fields : List (String × Json)) : Json

/-- Whitespace recognised by the JSON reader and by `jsTrim`. -/
def isWs (c : Char) : Bool :=
  c == ' ' || c == '\n' || c == '\t' || c == '\r'

/-- Drop leading whitespace characters. -/
def skipWs : List Char → List Char
  | [] => []
  | c :: rest => if isWs c then skipWs rest else c :: rest

/-- Split off a maximal leading run of decimal digits. -/
def takeDigits : List Char → (List Char × List Char)
  | [] => ([], [])
  | c :: rest =>
    if c.isDigit then
      let p := takeDigits rest
      (c :: p.1, p.2)
    else ([], c :: rest)

/-- Decimal value of a digit run. -/
def digitsToNat (ds : List Char) : Nat :=
  ds.foldl (fun acc c => acc * 10 + (c.toNat - 48)) 0

/-- Read the body of a JSON string up to the closing quote.  Escape sequences
are not part of the model (a backslash makes the parse fail). -/
def takeStringChars : List Char → Option (List Char × List Char)
  | [] => none
  | c :: rest =>
    if c == '\"' then some ([], rest)
    else if c == '\\' then none
    else
      match takeStringChars rest with
      | some (cs, rem) => some (c :: cs, rem)
      | none => none

mutual

/-- Recursive-descent reader for the JSON subset used by the event stream
(objects, arrays, strings without escapes, integers, `true`/`false`/`null`).
It models the host `JSON.parse`: on every payload appearing in this file the
two agree, in particular both reject a truncated object. -/
def parseValue : Nat → List Char → Option (Json × List Char)
  | 0, _ => none
  | fuel + 1, cs =>
    match skipWs cs with
    | [] => none
    | c :: rest =>
      if c == '\x7b' then parseMembers fuel true rest
      else if c == '[' then parseElems fuel true rest
      else if c == '\"' then
        match takeStringChars rest with
        | some (cs2, rem) => some (Json.str (String.mk cs2), rem)
        | none => none
      else if c == '-' then
        match takeDigits rest with
        | ([], _) => none
        | (ds, rem) => some (Json.num (-(digitsToNat ds : Int)), rem)
      else if c.isDigit then
        let p := takeDigits (c :: rest)
        some (Json.num (digitsToNat p.1), p.2)
      else if (c :: rest).take 4 == ['n', 'u', 'l', 'l'] then
        some (Json.null, (c :: rest).drop 4)
      else if (c :: rest).take 4 == ['t', 'r', 'u', 'e'] then
        some (Json.bool true, (c :: rest).drop 4)
      else if (c :: rest).take 5 == ['f', 'a', 'l', 's', 'e'] then
        some (Json.bool false, (c :: rest).drop 5)
      else none

/-- Object members after the opening brace; `allowClose` is false right after a
comma so that a trailing comma is rejected, as `JSON.parse` does. -/
def parseMembers : Nat → Bool → List Char → Option (Json × List Char)
  | 0, _, _ => none
  | fuel + 1, allowClose, cs =>
    match skipWs cs with
    | [] => none
    | c :: rest =>
      if allowClose && c == '\x7d' then some (Json.obj [], rest)
      else if c == '\"' then
        match takeStringChars rest with
        | none => none
        | some (key, rem1) =>
          match skipWs rem1 with
          | ':' :: rem2 =>
            match parseValue fuel rem2 with
            | none => none
            | some (v, rem3) =>
              match skipWs rem3 with
              | ',' :: rem4 =>
                match parseMembers fuel false rem4 with
                | some (Json.obj fs, rem5) => some (Json.obj ((String.mk key, v) :: fs), rem5)
                | _ => none
              | '\x7d' :: rem4 => some (Json.obj [(String.mk key, v)], rem4)
              | _ => none
          | _ => none
      else none

/-- Array elements after the opening bracket. -/
def parseElems : Nat → Bool → List Char → Option (Json × List Char)
  | 0, _, _ => none
  | fuel + 1, allowClose, cs =>
    match skipWs cs with
    | [] => none
    | c :: rest =>
      if allowClose && c == ']' then some (Json.arr [], rest)
      else
        match parseValue fuel (c :: rest) with
        | none => none
        | some (v, rem1) =>
          match skipWs rem1 with
          | ',' :: rem2 =>
            match parseElems fuel false rem2 with
            | some (Json.arr es, rem3) => some (Json.arr (v :: es), rem3)
            | _ => none
          | ']' :: rem2 => some (Json.arr [v], rem2)
          | _ => none

end

/-- Model of the host `JSON.parse`: parse a whole string as one JSON value. -/
def parseJson (s : String) : Option Json :=
  match parseValue (s.length + 1) s.data with
  | some (v, rem) => if skipWs rem == [] then some v else none
  | none => none

/-! ## Stream transport (`createStreamConnection` / `processStream`) -/

/-- Model of `line.startsWith('data: ')`. -/
def isDataLine (line : String) : Bool :=
  line.data.take 6 == "data: ".data

/-- Model of `line.slice(n)`. -/
def strDrop (s : String) (n : Nat) : String :=
  String.mk (s.data.drop n)

/-- Helper for `splitLines`, accumulating the current line reversed. -/
def splitLinesAux : List Char → List Char → List String
  | [], acc => [String.mk acc.reverse]
  | c :: rest, acc =>
    if c == '\n' then String.mk acc.reverse :: splitLinesAux rest []
    else splitLinesAux rest (c :: acc)

/-- Model of `chunk.split('\n')` (keeps empty pieces, including a trailing one). -/
def splitLines (s : String) : List String :=
  splitLinesAux s.data []

/-- The inner loop of `processStream` over the lines of one chunk: a line
carrying the `data: ` marker has its payload parsed as JSON; a parse failure is
logged and the line is skipped; any other line is ignored.  The result is the
ordered list of parsed envelopes handed to `handleStreamEvent`. -/
def processLines (parse : String → Option Json) : List String → List Json
  | [] => []
  | line :: rest =>
    if isDataLine line then
      match parse (strDrop line 6) with
      | some d => d :: processLines parse rest
      | none => processLines parse rest
    else processLines parse rest

/-- One iteration of the `processStream` read loop: the chunk is decoded and
split on newlines in isolation — the source keeps no carry-over buffer between
chunks. -/
def processChunk (parse : String → Option Json) (chunk : String) : List Json :=
  processLines parse (splitLines chunk)

/-- The full read loop over the sequence of chunks delivered by the reader. -/
def processStreamChunks (parse : String → Option Json) : List String → List Json
  | [] => []
  | c :: rest => processChunk parse c ++ processStreamChunks parse rest

/-! ## Cancellation (`createStreamConnection` returns `() => reader.cancel()`) -/

/-- The underlying reader: chunks not yet delivered, plus the cancelled flag
set by `reader.cancel()`. -/
structure ReaderState where
  pending : List String
  cancelled : Bool

/-- `reader.cancel()`. -/
def readerCancel (r : ReaderState) : ReaderState :=
  { r with cancelled := true }

/-- Envelopes delivered by the read loop when `cancel()` arrives after `k`
chunk reads: the loop suspends only at chunk-read boundaries, and a cancelled
reader answers `done` to the next read. -/
def runCancelledAfter (parse : String → Option Json) : List String → Nat → List Json
  | _, 0 => []
  | [], _ + 1 => []
  | c :: rest, k + 1 => processChunk parse c ++ runCancelledAfter parse rest k

/-! ## Event dispatcher (`handleStreamEvent`) -/

/-- Field lookup in a JSON object, modelling JavaScript property access
(`data.type` is `undefined` on non-objects and missing keys). -/
def lookupField : List (String × Json) → String → Option Json
  | [], _ => none
  | (k, v) :: rest, key => if k == key then some v else lookupField rest key

/-- `data.key` for a parsed envelope. -/
def jsonField (j : Json) (key : String) : Option Json :=
  match j with
  | Json.obj fields => lookupField fields key
  | _ => none

/-- The string value of `data.type` when it is a string; a `switch` on a
non-string discriminant matches none of the string cases. -/
def typeString (data : Json) : Option String :=
  match jsonField data "type" with
  | some (Json.str t) => some t
  | _ => none

/-- The ten callback slots of the `callbacks` bag passed to
`createStreamConnection`. -/
inductive CallbackId where
  | onConnect
  | onProcessingStart
  | onRouting
  | onRoutingResult
  | onStepUpdate
  | onStepGenerated
  | onSolutionComplete
  | onCompletion
  | onError
  | onUnknownEvent
deriving DecidableEq

/-- Which callbacks the caller registered (the optional-chaining call
`callbacks.onX?.(data)` is a no-op on an absent entry). -/
structure Callbacks where
  onConnect : Bool := false
  onProcessingStart : Bool := false
  onRouting : Bool := false
  onRoutingResult : Bool := false
  onStepUpdate : Bool := false
  onStepGenerated : Bool := false
  onSolutionComplete : Bool := false
  onCompletion : Bool := false
  onError : Bool := false
  onUnknownEvent : Bool := false
deriving DecidableEq

/-- Registration lookup by slot. -/
def registered (cbs : Callbacks) : CallbackId → Bool
  | CallbackId.onConnect => cbs.onConnect
  | CallbackId.onProcessingStart => cbs.onProcessingStart
  | CallbackId.onRouting => cbs.onRouting
  | CallbackId.onRoutingResult => cbs.onRoutingResult
  | CallbackId.onStepUpdate => cbs.onStepUpdate
  | CallbackId.onStepGenerated => cbs.onStepGenerated
  | CallbackId.onSolutionComplete => cbs.onSolutionComplete
  | CallbackId.onCompletion => cbs.onCompletion
  | CallbackId.onError => cbs.onError
  | CallbackId.onUnknownEvent => cbs.onUnknownEvent

/-- `callbacks.onX?.(data)`: the observable invocations of one optional call —
one invocation carrying the envelope unchanged when registered, none (and no
error) otherwise. -/
def optInvoke (isRegistered : Bool) (id : CallbackId) (data : Json) :
    List (CallbackId × Json) :=
  if isRegistered then [(id, data)] else []

/-- The dispatcher `handleStreamEvent(data, callbacks)`: a `switch` on
`data.type` — a sequence of strict string-equality tests — invoking exactly one
callback with the envelope unchanged, with `onUnknownEvent` as the default
case. -/
def handleStreamEvent (data : Json) (cbs : Callbacks) : List (CallbackId × Json) :=
  match typeString data with
  | some t =>
    if t == "connected" then optInvoke cbs.onConnect CallbackId.onConnect data
    else if t == "processing_started" then
      optInvoke cbs.onProcessingStart CallbackId.onProcessingStart data
    else if t == "routing" then optInvoke cbs.onRouting CallbackId.onRouting data
    else if t == "routing_result" then
      optInvoke cbs.onRoutingResult CallbackId.onRoutingResult data
    else if t == "step_update" then optInvoke cbs.onStepUpdate CallbackId.onStepUpdate data
    else if t == "step_generated" then
      optInvoke cbs.onStepGenerated CallbackId.onStepGenerated data
    else if t == "solution_complete" then
      optInvoke cbs.onSolutionComplete CallbackId.onSolutionComplete data
    else if t == "completion" then optInvoke cbs.onCompletion CallbackId.onCompletion data
    else if t == "error" then optInvoke cbs.onError CallbackId.onError data
    else optInvoke cbs.onUnknownEvent CallbackId.onUnknownEvent data
  | none => optInvoke cbs.onUnknownEvent CallbackId.onUnknownEvent data

/-- The slot the spec's discriminant table assigns to an envelope: each of the
nine named `type` strings goes to its callback, every other value to the
`unknown` catch-all. -/
def specTarget (data : Json) : CallbackId :=
  match typeString data with
  | some t =>
    if t == "connected" then CallbackId.onConnect
    else if t == "processing_started" then CallbackId.onProcessingStart
    else if t == "routing" then CallbackId.onRouting
    else if t == "routing_result" then CallbackId.onRoutingResult
    else if t == "step_update" then CallbackId.onStepUpdate
    else if t == "step_generated" then CallbackId.onStepGenerated
    else if t == "solution_complete" then CallbackId.onSolutionComplete
    else if t == "completion" then CallbackId.onCompletion
    else if t == "error" then CallbackId.onError
    else CallbackId.onUnknownEvent
  | none => CallbackId.onUnknownEvent

/-- An envelope whose only field is the given `type` discriminant. -/
def mkEnvelope (t : String) : Json :=
  Json.obj [("type", Json.str t)]

/-- A callback bag with no entry registered. -/
def noCallbacks : Callbacks := {}

/-- Dispatching a whole envelope sequence in order. -/
def dispatchAll (cbs : Callbacks) : List Json → List (CallbackId × Json)
  | [] => []
  | d :: rest => handleStreamEvent d cbs ++ dispatchAll cbs rest

/-! ## Data model: messages, solutions, feedback -/

/-- One solution step as delivered in `step_generated.step_data` and stored in
`solution.steps`. -/
structure StepData where
  text : String := ""
  type : Option String := none
deriving DecidableEq

/-- The structured result delivered by `solution_complete.data`. -/
structure SolutionData where
  steps : List StepData := []
  final_answer : Option String := none
  conversational_response : Option String := none
  route : Option String := none
  confidence : Option ℚ := none
deriving DecidableEq

/-- `feedbackDetails` stored on a message after feedback submission. -/
structure FeedbackDetails where
  rating : Nat := 0
  improvement_triggered : Bool := false
deriving DecidableEq

/-- One chat message, the unit of the message store.  Absent JavaScript fields
are `none`/`false` defaults. -/
structure Message where
  id : String := ""
  text : String := ""
  isUser : Bool := false
  timestamp : Nat := 0
  originalQuestion : String := ""
  streaming_session_id : Option String := none
  solution : Option SolutionData := none
  isError : Bool := false
  showFeedback : Bool := false
  feedbackSubmitted : Bool := false
  feedbackDetails : Option FeedbackDetails := none
  request_type : Option String := none
deriving DecidableEq

/-- JavaScript `a || b` on an (optional) string: the default wins on a missing
or empty (falsy) value. -/
def jsOrS : Option String → String → String
  | none, d => d
  | some s, d => if s == "" then d else s

/-- JavaScript `a || b` on an (optional) number: the default wins on a missing
or zero (falsy) value. -/
def jsOrQ : Option ℚ → ℚ → ℚ
  | none, d => d
  | some v, d => if v = 0 then d else v

/-- Model of `msg.text.trim()`: strip leading and trailing whitespace. -/
def dropWsLead : List Char → List Char
  | [] => []
  | c :: rest => if isWs c then dropWsLead rest else c :: rest

/-- Model of `msg.text.trim()`. -/
def jsTrim (s : String) : String :=
  String.mk ((dropWsLead ((dropWsLead s.data).reverse)).reverse)

/-! ## Conversation history builder (`buildConversationHistory`) -/

/-- One derived `\x7brole, content, request_type\x7d` history entry. -/
structure HistoryEntry where
  role : String
  content : String
  request_type : String
deriving DecidableEq

/-- The mapping applied to each retained message. -/
def toHistoryEntry (m : Message) : HistoryEntry :=
  { role := if m.isUser then "user" else "assistant"
    content := m.text
    request_type := jsOrS m.request_type "unknown" }

/-- `buildConversationHistory(currentMessages)` from `ChatInterface`: keep the
messages whose text is truthy and trims to something truthy, then map each to
its history entry, preserving order. -/
def buildConversationHistory (msgs : List Message) : List HistoryEntry :=
  (msgs.filter (fun m => m.text != "" && jsTrim m.text != "")).map toHistoryEntry

/-! ## Message store update (`setMessages(prev => prev.map(...))`) -/

/-- A patch as spread over a message (`\x7b...msg, ...patch\x7d`): each listed
field either keeps the old value or is overwritten whole. -/
structure Patch where
  text : Option String := none
  solution : Option SolutionData := none
  streaming_session_id : Option (Option String) := none
  isError : Option Bool := none
  feedbackSubmitted : Option Bool := none
  feedbackDetails : Option FeedbackDetails := none
deriving DecidableEq

/-- `\x7b...msg, ...patch\x7d`. -/
def applyPatch (m : Message) (p : Patch) : Message :=
  { m with
    text := p.text.getD m.text
    solution := match p.solution with | some s => some s | none => m.solution
    streaming_session_id := p.streaming_session_id.getD m.streaming_session_id
    isError := p.isError.getD m.isError
    feedbackSubmitted := p.feedbackSubmitted.getD m.feedbackSubmitted
    feedbackDetails := match p.feedbackDetails with | some d => some d | none => m.feedbackDetails }

/-- The store update pattern used throughout the sources:
`prev.map(msg => msg.id === id ? \x7b...msg, ...patch\x7d : msg)`. -/
def updateById (msgs : List Message) (i : String) (p : Patch) : List Message :=
  msgs.map (fun m => if m.id = i then applyPatch m p else m)

/-! ## Feedback handler (`handleInternalFeedback`) -/

/-- The feedback payload relevant to the handler. -/
structure FeedbackData where
  user_rating : Nat := 0
  user_comment : Option String := none
deriving DecidableEq

/-- The server's response to `submitFeedback` (returned data, discarded by the
handler). -/
structure FeedbackResponse where
  improvement_triggered : Option Bool := none
  message : Option String := none
deriving DecidableEq

/-- `handleInternalFeedback(messageId, feedbackData)` after `submitFeedback`
settles: on success the matching message is marked submitted with details
computed locally from the rating (`user_rating <= 2`); on failure (the `catch`
branch) the store is untouched.  The server response is never consulted. -/
def handleInternalFeedback (msgs : List Message) (messageId : String)
    (fd : FeedbackData) (submitSucceeded : Bool) (_response : FeedbackResponse) :
    List Message :=
  if submitSucceeded then
    msgs.map (fun m =>
      if m.id = messageId then
        { m with
          feedbackSubmitted := true
          feedbackDetails := some
            { rating := fd.user_rating
              improvement_triggered := decide (fd.user_rating ≤ 2) } }
      else m)
  else msgs

/-! ## Session controller (`StreamingSolutionDisplay` callbacks) -/

/-- `routeInfo` as stored by `onRoutingResult`. -/
structure RouteInfo where
  route : String := ""
  confidence : ℚ := 0
  message : Option String := none
deriving DecidableEq

/-- An entry of `streamedSteps` as appended by `onStepGenerated`. -/
structure DisplayStep where
  text : String := ""
  type : Option String := none
  stepNumber : Nat := 0
  isStreaming : Bool := true
deriving DecidableEq

/-- The component state of `StreamingSolutionDisplay` right after the effect
resets it for a new session. -/
structure DisplayState where
  streamedSteps : List DisplayStep := []
  finalSolution : Option SolutionData := none
  isStreaming : Bool := true
  progress : ℚ := 0
  currentStep : Option String := none
  routeInfo : Option RouteInfo := none
deriving DecidableEq

/-- Typed event envelopes as consumed by the session callbacks (the payload
fields each callback reads). -/
inductive SEvent where
  | connected
  | processing_started (message : Option String)
  | routing (message : Option String)
  | routing_result (route : String) (confidence : ℚ) (message : Option String)
  | step_update (message : Option String) (progress : Option ℚ)
  | step_generated (step_number : Nat) (total_steps : Nat) (step_data : StepData)
  | solution_complete (data : SolutionData)
  | completion (message : Option String) (progress : Option ℚ)
  | errorEvent (message : String)
deriving DecidableEq

/-- Session phases.  Modelled from the spec: the code keeps no explicit phase
variable, so the phase is the spec's abstraction of which event was processed
last (§4.3 transition table); `completed` and `errored` are the terminals. -/
inductive Phase where
  | connecting
  | started
  | routing
  | routed
  | stepping
  | finalizing
  | completed
  | errored
deriving DecidableEq

/-- The spec's phase transition for one event (the `connected` event is
informational and leaves the phase alone). -/
def stepPhase (ph : Phase) : SEvent → Phase
  | SEvent.connected => ph
  | SEvent.processing_started _ => Phase.started
  | SEvent.routing _ => Phase.routing
  | SEvent.routing_result _ _ _ => Phase.routed
  | SEvent.step_update _ _ => Phase.stepping
  | SEvent.step_generated _ _ _ => Phase.stepping
  | SEvent.completion _ _ => Phase.finalizing
  | SEvent.solution_complete _ => Phase.completed
  | SEvent.errorEvent _ => Phase.errored

/-- A terminal phase. -/
def TerminalPhase (ph : Phase) : Prop :=
  ph = Phase.completed ∨ ph = Phase.errored

/-- The display state, the owning message, and the spec-level phase of one
streaming session. -/
structure SessionState where
  display : DisplayState := {}
  message : Message := {}
  phase : Phase := Phase.connecting
deriving DecidableEq

/-- The `onRoutingResult` status line; the numeric confidence formatting of the
source template is elided (the text is not load-bearing anywhere). -/
def routeMsg (r : String) : String :=
  "Using " ++ r ++ " route"

/-- One event through the `StreamingSolutionDisplay` callbacks.  Only
`solution_complete` touches the owning message, via
`onComplete → handleStreamingComplete → message.onSolutionComplete`, which
stores the solution, replaces the text and clears `streaming_session_id`
(`index.jsx`).  `onError` only updates display state — it neither marks the
message nor cancels the transport. -/
def applyEvent (st : SessionState) (e : SEvent) : SessionState :=
  let ph := stepPhase st.phase e
  match e with
  | SEvent.connected => { st with phase := ph }
  | SEvent.processing_started m =>
    { st with
      phase := ph
      display := { st.display with
        currentStep := some (jsOrS m "Starting to solve your math problem...")
        progress := 10 } }
  | SEvent.routing m =>
    { st with
      phase := ph
      display := { st.display with
        currentStep := some (jsOrS m "Checking knowledge base for similar problems...")
        progress := 25 } }
  | SEvent.routing_result r c m =>
    { st with
      phase := ph
      display := { st.display with
        routeInfo := some { route := r, confidence := c, message := m }
        currentStep := some (jsOrS m (routeMsg r))
        progress := 40 } }
  | SEvent.step_update m p =>
    { st with
      phase := ph
      display := { st.display with
        currentStep := m
        progress := jsOrQ p 50 } }
  | SEvent.step_generated k n sd =>
    { st with
      phase := ph
      display := { st.display with
        streamedSteps := st.display.streamedSteps ++
          [{ text := sd.text, type := sd.type, stepNumber := k, isStreaming := true }]
        progress := 50 + ((k : ℚ) / (n : ℚ)) * 30 } }
  | SEvent.solution_complete d =>
    { phase := ph
      display := { st.display with
        finalSolution := some d
        currentStep := some "Solution complete!"
        progress := 100
        isStreaming := false }
      message := { st.message with
        solution := some d
        text := jsOrS d.conversational_response
          "I've solved your math problem! Here's the solution:"
        streaming_session_id := none } }
  | SEvent.completion m p =>
    { st with
      phase := ph
      display := { st.display with
        currentStep := some (jsOrS m "Finalizing solution...")
        progress := jsOrQ p 95 } }
  | SEvent.errorEvent m =>
    { st with
      phase := ph
      display := { st.display with
        currentStep := some ("Error: " ++ m)
        isStreaming := false } }

/-- Process a whole event sequence. -/
def runEvents (st : SessionState) : List SEvent → SessionState
  | [] => st
  | e :: es => runEvents (applyEvent st e) es

/-- The progress values a reader of the component state observes: the value
before each event and the final value. -/
def progressTrace (st : SessionState) : List SEvent → List ℚ
  | [] => [st.display.progress]
  | e :: es => st.display.progress :: progressTrace (applyEvent st e) es

/-- Whether an event unconditionally overwrites `progress` (all except the
informational `connected` and `error`, which leave it alone). -/
def setsProgress : SEvent → Bool
  | SEvent.connected => false
  | SEvent.errorEvent _ => false
  | _ => true

/-- The progress value written by a progress-setting event (0 on the two
events that never write, unused there). -/
def progVal : SEvent → ℚ
  | SEvent.connected => 0
  | SEvent.processing_started _ => 10
  | SEvent.routing _ => 25
  | SEvent.routing_result _ _ _ => 40
  | SEvent.step_update _ p => jsOrQ p 50
  | SEvent.step_generated k n _ => 50 + ((k : ℚ) / (n : ℚ)) * 30
  | SEvent.solution_complete _ => 100
  | SEvent.completion _ p => jsOrQ p 95
  | SEvent.errorEvent _ => 0

/-- The `step_generated` events for steps 1…n of a run with `total_steps = n`. -/
def stepEvents (n : Nat) (sd : Nat → StepData) : List SEvent :=
  (List.range n).map (fun k => SEvent.step_generated (k + 1) n (sd k))

/-- A well-formed event sequence in the sense of claim C2: the listed event
kinds in the listed order, with 1-based step numbers up to `total_steps ≥ 1`
and payload `progress`/`confidence` fields in their documented ranges. -/
def WellFormedC2 (es : List SEvent) : Prop :=
  ∃ (m1 m2 m3 m4 m5 : Option String) (r : String) (c : ℚ) (p q : Option ℚ)
    (n : Nat) (sd : Nat → StepData) (d : SolutionData),
    1 ≤ n ∧
    (∀ v, p = some v → 0 ≤ v ∧ v ≤ 100) ∧
    (∀ v, q = some v → 0 ≤ v ∧ v ≤ 100) ∧
    0 ≤ c ∧ c ≤ 1 ∧
    es = [SEvent.processing_started m1, SEvent.routing m2,
          SEvent.routing_result r c m3, SEvent.step_update m4 p] ++
         stepEvents n sd ++
         [SEvent.completion m5 q, SEvent.solution_complete d]

/-- The same shape with the `step_update` and `completion` envelopes carrying
no explicit `progress` field, so the code's defaults (50 and 95) apply. -/
def WellFormedC2Defaults (es : List SEvent) : Prop :=
  ∃ (m1 m2 m3 m4 m5 : Option String) (r : String) (c : ℚ)
    (n : Nat) (sd : Nat → StepData) (d : SolutionData),
    1 ≤ n ∧ 0 ≤ c ∧ c ≤ 1 ∧
    es = [SEvent.processing_started m1, SEvent.routing m2,
          SEvent.routing_result r c m3, SEvent.step_update m4 none] ++
         stepEvents n sd ++
         [SEvent.completion m5 none, SEvent.solution_complete d]

/-! ## Live-session bookkeeping (`handleInternalSendMessage`) -/

/-- Observable transport lifecycle actions, in program order. -/
inductive StreamAction where
  | cancelConn (sid : Nat)
  | openConn (sid : Nat)
deriving DecidableEq

/-- The piece of `ChatInterface` state that governs stream lifecycles:
`streamCleanupRef.current` (tagged by the session it cancels) plus the log of
lifecycle actions performed so far. -/
structure ChatStreamState where
  activeCleanup : Option Nat := none
  log : List StreamAction := []
deriving DecidableEq

/-- The lifecycle part of `handleInternalSendMessage`: if a cleanup for an
earlier stream is held it is invoked (exactly once) first, then the new
connection is opened and its cleanup stored. -/
def handleInternalSendMessage (st : ChatStreamState) (sid : Nat) : ChatStreamState :=
  match st.activeCleanup with
  | some old =>
    { activeCleanup := some sid
      log := st.log ++ [StreamAction.cancelConn old, StreamAction.openConn sid] }
  | none =>
    { activeCleanup := some sid
      log := st.log ++ [StreamAction.openConn sid] }

/-- Submit a sequence of questions. -/
def submitAll (st : ChatStreamState) : List Nat → ChatStreamState
  | [] => st
  | sid :: rest => submitAll (handleInternalSendMessage st sid) rest

/-- The sessions whose transport has been opened and not cancelled after a
prefix of the action log. -/
def liveSessions (log : List StreamAction) : List Nat :=
  log.foldl
    (fun acc a =>
      match a with
      | StreamAction.openConn s => acc ++ [s]
      | StreamAction.cancelConn s => acc.erase s)
    []

/-! ## Concrete fixtures used by witnesses and counterexamples -/

/-- A callback bag with every slot registered. -/
def allCallbacks : Callbacks :=
  { onConnect := true, onProcessingStart := true, onRouting := true
    onRoutingResult := true, onStepUpdate := true, onStepGenerated := true
    onSolutionComplete := true, onCompletion := true, onError := true
    onUnknownEvent := true }

/-- Step payloads for the concrete event sequences. -/
def sdC2 : Nat → StepData := fun _ => { text := "x = 3" }

/-- A spec-legal event sequence whose `step_update` carries `progress = 30`. -/
def esC2 : List SEvent :=
  [SEvent.processing_started none, SEvent.routing none,
   SEvent.routing_result "knowledge_base" 1 none,
   SEvent.step_update none (some 30)] ++
  stepEvents 1 sdC2 ++
  [SEvent.completion none none, SEvent.solution_complete {}]

/-- The same sequence with no explicit progress payloads. -/
def esC2w : List SEvent :=
  [SEvent.processing_started none, SEvent.routing none,
   SEvent.routing_result "knowledge_base" 1 none,
   SEvent.step_update none none] ++
  stepEvents 1 sdC2 ++
  [SEvent.completion none none, SEvent.solution_complete {}]

/-- A session already at a terminal phase. -/
def stC4 : SessionState := { phase := Phase.completed }

/-- A two-message store with distinct ids. -/
def msgsC9 : List Message :=
  [{ id := "u1", text := "solve it", isUser := true },
   { id := "a1", text := "done", solution := some {} }]

/-- The feedback patch of `handleFeedback`. -/
def patchC9 : Patch := { feedbackSubmitted := some true }

/-- A store holding one answered assistant message. -/
def msgsC10 : List Message :=
  [{ id := "a1", text := "done", originalQuestion := "q", solution := some {} }]

/-! # Theorems -/

/-! ## Supporting lemmas -/

theorem processLines_append (parse : String → Option Json) :
    ∀ (l1 l2 : List String),
      processLines parse (l1 ++ l2) = processLines parse l1 ++ processLines parse l2 := by
  intro l1 l2
  induction l1 with
  | nil => rfl
  | cons line rest ih =>
    simp only [List.cons_append, processLines]
    split
    · cases parse (strDrop line 6) <;> simp [ih]
    · exact ih

theorem dispatchAll_append (cbs : Callbacks) :
    ∀ (l1 l2 : List Json),
      dispatchAll cbs (l1 ++ l2) = dispatchAll cbs l1 ++ dispatchAll cbs l2 := by
  intro l1 l2
  induction l1 with
  | nil => rfl
  | cons d rest ih => simp [dispatchAll, ih]

/-! ## C1 — chunk-boundary reassembly -/

/-- Claim C1.  The claim states that a data line split across two chunk reads
is buffered and re-assembled into one parsed envelope.  The code splits each
chunk in isolation: on the spec's own example the fragment carrying the
`data: ` marker fails to parse and is skipped, the remainder lacks the marker
and is ignored, so the envelope is lost — while the unsplit line yields it. -/
theorem c1_split_data_line_dropped :
    parseJson "\x7b\"a\":1" = none
  ∧ parseJson "\x7b\"a\":1\x7d" = some (Json.obj [("a", Json.num 1)])
  ∧ processStreamChunks parseJson ["data: \x7b\"a\":1", "\x7d\n"] = []
  ∧ processStreamChunks parseJson ["data: \x7b\"a\":1\x7d\n"] =
      [Json.obj [("a", Json.num 1)]] :=
  ⟨rfl, rfl, rfl, rfl⟩

/-! ## C5 — one malformed line never aborts the stream -/

/-- Claim C5.  A line whose payload fails to parse is skipped and only that
line is lost: the envelopes parsed — and the callbacks dispatched — for the
lines before and after it are exactly those of the sequence without it. -/
theorem c5_malformed_line_recovered :
    ∀ (parse : String → Option Json) (cbs : Callbacks) (pre post : List String)
      (bad : String),
      parse (strDrop bad 6) = none →
      processLines parse (pre ++ bad :: post) =
        processLines parse pre ++ processLines parse post
      ∧ dispatchAll cbs (processLines parse (pre ++ bad :: post)) =
          dispatchAll cbs (processLines parse pre) ++
            dispatchAll cbs (processLines parse post) := by
  intro parse cbs pre post bad h
  have hbad : processLines parse (bad :: post) = processLines parse post := by
    simp only [processLines]
    split
    · rw [h]
    · rfl
  constructor
  · rw [processLines_append, hbad]
  · rw [processLines_append, hbad, dispatchAll_append]

/-- Witness for C5 at a concrete malformed line between two valid lines. -/
theorem c5_malformed_line_recovered_witness :
    parseJson (strDrop "data: \x7bbroken" 6) = none
  ∧ (processLines parseJson (["data: \x7b\"a\":1\x7d"] ++ "data: \x7bbroken" :: ["data: 2"]) =
      processLines parseJson ["data: \x7b\"a\":1\x7d"] ++ processLines parseJson ["data: 2"]
    ∧ dispatchAll allCallbacks
        (processLines parseJson (["data: \x7b\"a\":1\x7d"] ++ "data: \x7bbroken" :: ["data: 2"])) =
        dispatchAll allCallbacks (processLines parseJson ["data: \x7b\"a\":1\x7d"]) ++
          dispatchAll allCallbacks (processLines parseJson ["data: 2"])) :=
  ⟨rfl, c5_malformed_line_recovered parseJson allCallbacks
    ["data: \x7b\"a\":1\x7d"] ["data: 2"] "data: \x7bbroken" rfl⟩

/-! ## C8 — cancel() semantics -/

/-- Claim C8.  `cancel()` is idempotent and safe after the stream has ended;
cancelling before any read delivers nothing (zero callback invocations), and
cancelling after `k` reads delivers exactly the first `k` chunks — lines fed
to the transport afterwards produce no callback. -/
theorem c8_cancel_semantics :
    (∀ r : ReaderState, readerCancel (readerCancel r) = readerCancel r)
  ∧ (∀ (parse : String → Option Json) (chunks : List String),
      runCancelledAfter parse chunks 0 = [])
  ∧ (∀ (parse : String → Option Json) (cbs : Callbacks) (chunks : List String),
      dispatchAll cbs (runCancelledAfter parse chunks 0) = [])
  ∧ (∀ (parse : String → Option Json) (chunks : List String) (k : Nat),
      runCancelledAfter parse chunks k = processStreamChunks parse (chunks.take k))
  ∧ (∀ (parse : String → Option Json) (chunks extra : List String),
      runCancelledAfter parse (chunks ++ extra) chunks.length =
        processStreamChunks parse chunks) := by
  have htake : ∀ (parse : String → Option Json) (chunks : List String) (k : Nat),
      runCancelledAfter parse chunks k = processStreamChunks parse (chunks.take k) := by
    intro parse chunks
    induction chunks with
    | nil => intro k; cases k <;> rfl
    | cons c rest ih =>
      intro k
      cases k with
      | zero => rfl
      | succ k' => simp [runCancelledAfter, processStreamChunks, ih k']
  refine ⟨fun r => rfl, ?_, ?_, htake, ?_⟩
  · intro parse chunks; cases chunks <;> rfl
  · intro parse cbs chunks; cases chunks <;> rfl
  · intro parse chunks extra
    rw [htake, List.take_left]

/-! ## C6 — exhaustive dispatch -/

set_option maxHeartbeats 2000000 in
/-- Claim C6.  The dispatcher invokes exactly the callback named by the
envelope's `type` discriminant, passing the envelope unchanged; each of the
nine named types maps to its slot and every other discriminant to the
`unknown` catch-all; an unregistered slot means the event is silently dropped
(the empty invocation list, no error). -/
theorem c6_dispatch_exhaustive :
    (∀ (data : Json) (cbs : Callbacks),
      handleStreamEvent data cbs =
        optInvoke (registered cbs (specTarget data)) (specTarget data) data)
  ∧ (∀ data : Json, handleStreamEvent data noCallbacks = [])
  ∧ specTarget (mkEnvelope "connected") = CallbackId.onConnect
  ∧ specTarget (mkEnvelope "processing_started") = CallbackId.onProcessingStart
  ∧ specTarget (mkEnvelope "routing") = CallbackId.onRouting
  ∧ specTarget (mkEnvelope "routing_result") = CallbackId.onRoutingResult
  ∧ specTarget (mkEnvelope "step_update") = CallbackId.onStepUpdate
  ∧ specTarget (mkEnvelope "step_generated") = CallbackId.onStepGenerated
  ∧ specTarget (mkEnvelope "solution_complete") = CallbackId.onSolutionComplete
  ∧ specTarget (mkEnvelope "completion") = CallbackId.onCompletion
  ∧ specTarget (mkEnvelope "error") = CallbackId.onError
  ∧ specTarget (mkEnvelope "something_else") = CallbackId.onUnknownEvent := by
  have hmain : ∀ (data : Json) (cbs : Callbacks),
      handleStreamEvent data cbs =
        optInvoke (registered cbs (specTarget data)) (specTarget data) data := by
    intro data cbs
    unfold handleStreamEvent specTarget
    cases htype : typeString data with
    | none => rfl
    | some t =>
      dsimp only
      split_ifs <;> rfl
  refine ⟨hmain, ?_, rfl, rfl, rfl, rfl, rfl, rfl, rfl, rfl, rfl, rfl⟩
  intro data
  rw [hmain]
  have hreg : registered noCallbacks (specTarget data) = false := by
    cases specTarget data <;> rfl
  rw [hreg]
  rfl


/-! ## C7 — conversation history builder -/

/-- Claim C7.  The builder drops exactly the messages whose text is empty or
whitespace-only and maps the remaining messages in order to their
`role`/`content`/`request_type` entries; on `[\x7btext:""\x7d, \x7btext:"hi", role:user\x7d]`
it yields exactly one entry `\x7brole:"user", content:"hi"\x7d`. -/
theorem c7_history_builder :
    (∀ msgs : List Message,
      buildConversationHistory msgs =
        msgs.filterMap
          (fun m => if jsTrim m.text == "" then none else some (toHistoryEntry m)))
  ∧ buildConversationHistory [{ text := "" }, { text := "hi", isUser := true }] =
      [{ role := "user", content := "hi", request_type := "unknown" }] := by
  constructor
  · intro msgs
    induction msgs with
    | nil => rfl
    | cons m rest ih =>
      simp only [buildConversationHistory] at ih ⊢
      by_cases htrim : jsTrim m.text = ""
      · have hcond : (m.text != "" && jsTrim m.text != "") = false := by
          simp [htrim]
        simp [List.filter_cons, List.filterMap_cons, hcond, htrim, ih]
      · have hne : m.text ≠ "" := fun h => htrim (by rw [h]; rfl)
        have hcond : (m.text != "" && jsTrim m.text != "") = true := by
          simp [htrim, hne]
        simp [List.filter_cons, List.filterMap_cons, hcond, htrim, ih]
  · rfl

/-! ## C9 — frame property of the store update -/

theorem updateById_no_match (i : String) (p : Patch) :
    ∀ (l : List Message), (∀ m ∈ l, m.id ≠ i) → updateById l i p = l := by
  intro l
  induction l with
  | nil => intro _; rfl
  | cons m rest ih =>
    intro h
    have hm : m.id ≠ i := h m (List.mem_cons_self m rest)
    have hrest := ih (fun x hx => h x (List.mem_cons_of_mem m hx))
    simp only [updateById, List.map_cons] at hrest ⊢
    simp [hm, hrest]

theorem updateById_eq_of_get (p : Patch) (i : String) :
    ∀ (msgs : List Message), (msgs.map Message.id).Nodup →
      ∀ (j : Nat) (hj : j < msgs.length), (msgs.get ⟨j, hj⟩).id = i →
        updateById msgs i p =
          msgs.take j ++ applyPatch (msgs.get ⟨j, hj⟩) p :: msgs.drop (j + 1) := by
  intro msgs
  induction msgs with
  | nil => intro _ j hj _; exact absurd hj (Nat.not_lt_zero j)
  | cons m rest ih =>
    intro hnodup j hj hid
    rw [List.map_cons, List.nodup_cons] at hnodup
    cases j with
    | zero =>
      have hid0 : m.id = i := hid
      have htail : ∀ x ∈ rest, x.id ≠ i := by
        intro x hx hxi
        exact hnodup.1 (List.mem_map.mpr ⟨x, hx, by rw [hxi, hid0]⟩)
      have hrest := updateById_no_match i p rest htail
      simp only [updateById, List.map_cons] at hrest ⊢
      simp [hid0, hrest, List.take, List.drop]
    | succ j' =>
      have hj' : j' < rest.length := Nat.lt_of_succ_lt_succ hj
      have hid' : (rest.get ⟨j', hj'⟩).id = i := hid
      have hmne : m.id ≠ i := by
        intro hmi
        exact hnodup.1 (List.mem_map.mpr
          ⟨rest.get ⟨j', hj'⟩, List.get_mem rest j' hj', by rw [hid', hmi]⟩)
      have htail := ih hnodup.2 j' hj' hid'
      simp only [updateById, List.map_cons] at htail ⊢
      simp [hmne, htail, List.take, List.drop]

/-- Claim C9.  `updateById` patches exactly the one entry whose id matches
(under the data-model invariant that ids are unique): the store becomes the
old list with that single entry replaced whole, each field not named in the
patch keeps its value, and every observable entry is either an untouched old
message or a fully patched one — never a partial application. -/
theorem c9_update_by_id_frame :
    ∀ (msgs : List Message) (i : String) (p : Patch),
      ((msgs.map Message.id).Nodup →
        ∀ (j : Nat) (hj : j < msgs.length), (msgs.get ⟨j, hj⟩).id = i →
          updateById msgs i p =
            msgs.take j ++ applyPatch (msgs.get ⟨j, hj⟩) p :: msgs.drop (j + 1))
      ∧ (∀ m : Message,
          (applyPatch m p).id = m.id ∧
          (applyPatch m p).isUser = m.isUser ∧
          (applyPatch m p).timestamp = m.timestamp ∧
          (applyPatch m p).originalQuestion = m.originalQuestion ∧
          (applyPatch m p).showFeedback = m.showFeedback ∧
          (applyPatch m p).request_type = m.request_type ∧
          (p.text = none → (applyPatch m p).text = m.text) ∧
          (p.solution = none → (applyPatch m p).solution = m.solution) ∧
          (p.streaming_session_id = none →
            (applyPatch m p).streaming_session_id = m.streaming_session_id) ∧
          (p.isError = none → (applyPatch m p).isError = m.isError) ∧
          (p.feedbackSubmitted = none →
            (applyPatch m p).feedbackSubmitted = m.feedbackSubmitted) ∧
          (p.feedbackDetails = none →
            (applyPatch m p).feedbackDetails = m.feedbackDetails))
      ∧ (∀ e ∈ updateById msgs i p, e ∈ msgs ∨ ∃ m, m ∈ msgs ∧ e = applyPatch m p) := by
  intro msgs i p
  refine ⟨updateById_eq_of_get p i msgs, ?_, ?_⟩
  · intro m
    refine ⟨rfl, rfl, rfl, rfl, rfl, rfl, ?_, ?_, ?_, ?_, ?_, ?_⟩ <;>
      intro h <;> simp [applyPatch, h]
  · intro e he
    rw [updateById, List.mem_map] at he
    obtain ⟨m, hm, hme⟩ := he
    by_cases hid : m.id = i
    · right
      exact ⟨m, hm, by rw [← hme, if_pos hid]⟩
    · left
      rw [← hme, if_neg hid]
      exact hm

/-- Witness for C9: patching the second of two messages. -/
theorem c9_update_by_id_frame_witness :
    (msgsC9.map Message.id).Nodup
  ∧ (msgsC9.get ⟨1, by decide⟩).id = "a1"
  ∧ updateById msgsC9 "a1" patchC9 =
      msgsC9.take 1 ++ applyPatch (msgsC9.get ⟨1, by decide⟩) patchC9 :: msgsC9.drop 2 :=
  ⟨by decide, rfl,
    (c9_update_by_id_frame msgsC9 "a1" patchC9).1 (by decide) 1 (by decide) rfl⟩

/-! ## C10 — feedback details are computed locally -/

/-- Claim C10.  After a successful submission the matching message is marked
submitted with `improvement_triggered` true exactly when the rating is at most
2, computed from the rating alone: the handler's result does not depend on the
server's response. -/
theorem c10_feedback_local :
    ∀ (msgs : List Message) (mid : String) (fd : FeedbackData)
      (r1 r2 : FeedbackResponse),
      handleInternalFeedback msgs mid fd true r1 =
        handleInternalFeedback msgs mid fd true r2
      ∧ ∀ (j : Nat) (hj : j < msgs.length), (msgs.get ⟨j, hj⟩).id = mid →
          ∃ hj2 : j < (handleInternalFeedback msgs mid fd true r1).length,
            ∃ details : FeedbackDetails,
              ((handleInternalFeedback msgs mid fd true r1).get ⟨j, hj2⟩).feedbackDetails =
                some details
              ∧ ((handleInternalFeedback msgs mid fd true r1).get ⟨j, hj2⟩).feedbackSubmitted
                  = true
              ∧ details.rating = fd.user_rating
              ∧ (details.improvement_triggered = true ↔ fd.user_rating ≤ 2) := by
  intro msgs mid fd r1 r2
  refine ⟨rfl, ?_⟩
  intro j hj hid
  have hlen : (handleInternalFeedback msgs mid fd true r1).length = msgs.length := by
    simp [handleInternalFeedback]
  refine ⟨by rw [hlen]; exact hj, ?_⟩
  have hidg : msgs[j].id = mid := hid
  have hget : (handleInternalFeedback msgs mid fd true r1).get ⟨j, by rw [hlen]; exact hj⟩ =
      { msgs.get ⟨j, hj⟩ with
        feedbackSubmitted := true
        feedbackDetails := some
          { rating := fd.user_rating
            improvement_triggered := decide (fd.user_rating ≤ 2) } } := by
    simp [handleInternalFeedback, List.get_eq_getElem, List.getElem_map, hidg]
  refine ⟨{ rating := fd.user_rating, improvement_triggered := decide (fd.user_rating ≤ 2) },
    ?_, ?_, rfl, ?_⟩
  · rw [hget]
  · rw [hget]
  · simp

/-- Witness for C10: a rating of 1 marks the improvement flag. -/
theorem c10_feedback_local_witness :
    (msgsC10.get ⟨0, by decide⟩).id = "a1"
  ∧ handleInternalFeedback msgsC10 "a1" { user_rating := 1 } true {} =
      handleInternalFeedback msgsC10 "a1" { user_rating := 1 } true
        { improvement_triggered := some false }
  ∧ ∃ hj2 : 0 < (handleInternalFeedback msgsC10 "a1" { user_rating := 1 } true {}).length,
      ∃ details : FeedbackDetails,
        ((handleInternalFeedback msgsC10 "a1" { user_rating := 1 } true {}).get
            ⟨0, hj2⟩).feedbackDetails = some details
        ∧ ((handleInternalFeedback msgsC10 "a1" { user_rating := 1 } true {}).get
            ⟨0, hj2⟩).feedbackSubmitted = true
        ∧ details.rating = ({ user_rating := 1 } : FeedbackData).user_rating
        ∧ (details.improvement_triggered = true ↔
            ({ user_rating := 1 } : FeedbackData).user_rating ≤ 2) :=
  ⟨rfl,
    (c10_feedback_local msgsC10 "a1" { user_rating := 1 } {}
      { improvement_triggered := some false }).1,
    (c10_feedback_local msgsC10 "a1" { user_rating := 1 } {}
      { improvement_triggered := some false }).2 0 (by decide) rfl⟩


/-! ## C3 — at most one live session; cancel precedes the next open -/

theorem liveSessions_append :
    ∀ (l l2 : List StreamAction),
      liveSessions (l ++ l2) =
        l2.foldl
          (fun acc a =>
            match a with
            | StreamAction.openConn s => acc ++ [s]
            | StreamAction.cancelConn s => acc.erase s)
          (liveSessions l) := by
  intro l l2
  simp [liveSessions, List.foldl_append]

theorem take_one_cases (a : StreamAction) (m : Nat) :
    List.take m [a] = [] ∨ List.take m [a] = [a] := by
  cases m with
  | zero => exact Or.inl rfl
  | succ m' => exact Or.inr (by simp)

theorem take_two_cases (a b : StreamAction) (m : Nat) :
    List.take m [a, b] = [] ∨ List.take m [a, b] = [a] ∨ List.take m [a, b] = [a, b] := by
  cases m with
  | zero => exact Or.inl rfl
  | succ m' =>
    cases m' with
    | zero => exact Or.inr (Or.inl rfl)
    | succ m'' => exact Or.inr (Or.inr (by simp))

theorem sendMessage_preserves_inv (st : ChatStreamState) (sid : Nat)
    (h1 : liveSessions st.log = st.activeCleanup.toList)
    (h2 : ∀ k, (liveSessions (st.log.take k)).length ≤ 1) :
    liveSessions (handleInternalSendMessage st sid).log =
      (handleInternalSendMessage st sid).activeCleanup.toList
    ∧ ∀ k, (liveSessions ((handleInternalSendMessage st sid).log.take k)).length ≤ 1 := by
  cases hact : st.activeCleanup with
  | none =>
    rw [hact] at h1
    constructor
    · simp [handleInternalSendMessage, hact, liveSessions_append, h1]
    · intro k
      simp only [handleInternalSendMessage, hact]
      by_cases hk : k ≤ st.log.length
      · rw [List.take_append_of_le_length hk]
        exact h2 k
      · have hk' : st.log.length ≤ k := Nat.le_of_lt (Nat.lt_of_not_le hk)
        rw [List.take_append_eq_append_take, List.take_of_length_le hk']
        rcases take_one_cases (StreamAction.openConn sid) (k - st.log.length) with h | h <;>
          simp [h, liveSessions_append, h1]
  | some old =>
    rw [hact] at h1
    constructor
    · simp [handleInternalSendMessage, hact, liveSessions_append, h1]
    · intro k
      simp only [handleInternalSendMessage, hact]
      by_cases hk : k ≤ st.log.length
      · rw [List.take_append_of_le_length hk]
        exact h2 k
      · have hk' : st.log.length ≤ k := Nat.le_of_lt (Nat.lt_of_not_le hk)
        rw [List.take_append_eq_append_take, List.take_of_length_le hk']
        rcases take_two_cases (StreamAction.cancelConn old) (StreamAction.openConn sid)
            (k - st.log.length) with h | h | h <;>
          simp [h, liveSessions_append, h1]

theorem submitAll_inv :
    ∀ (sids : List Nat) (st : ChatStreamState),
      liveSessions st.log = st.activeCleanup.toList →
      (∀ k, (liveSessions (st.log.take k)).length ≤ 1) →
      ∀ k, (liveSessions ((submitAll st sids).log.take k)).length ≤ 1 := by
  intro sids
  induction sids with
  | nil => intro st _ h2; exact h2
  | cons sid rest ih =>
    intro st h1 h2
    have h := sendMessage_preserves_inv st sid h1 h2
    exact ih (handleInternalSendMessage st sid) h.1 h.2

/-- Claim C3.  Submitting a question while a stream cleanup is held invokes
that cleanup exactly once and only then opens the new connection; consequently
after any sequence of submissions, every prefix of the lifecycle log shows at
most one live (opened and not cancelled) session. -/
theorem c3_single_live_session :
    (∀ (st : ChatStreamState) (sid old : Nat), st.activeCleanup = some old →
      (handleInternalSendMessage st sid).log =
        st.log ++ [StreamAction.cancelConn old, StreamAction.openConn sid])
  ∧ (∀ (sids : List Nat) (k : Nat),
      (liveSessions ((submitAll {} sids).log.take k)).length ≤ 1) := by
  constructor
  · intro st sid old h
    simp [handleInternalSendMessage, h]
  · intro sids k
    exact submitAll_inv sids {} rfl (fun k' => by simp [liveSessions]) k

/-- Witness for C3: a second question cancels the first stream before opening
the second. -/
theorem c3_single_live_session_witness :
    ({ activeCleanup := some 1, log := [StreamAction.openConn 1] } : ChatStreamState).activeCleanup
      = some 1
  ∧ (handleInternalSendMessage
      { activeCleanup := some 1, log := [StreamAction.openConn 1] } 2).log =
      [StreamAction.openConn 1] ++ [StreamAction.cancelConn 1, StreamAction.openConn 2]
  ∧ (liveSessions ((submitAll {} [1, 2]).log.take 2)).length ≤ 1 :=
  ⟨rfl,
    c3_single_live_session.1
      { activeCleanup := some 1, log := [StreamAction.openConn 1] } 2 1 rfl,
    c3_single_live_session.2 [1, 2] 2⟩


/-! ## C4 — behaviour after a terminal phase -/

/-- Counterexample for C4: after an `error` envelope the session is at the
`errored` terminal and the owning message is untouched — yet a
`solution_complete` envelope processed afterwards still mutates the message
(it stores a solution, rewrites the text and clears the streaming id), and
nothing has cancelled the transport at the `errored` terminal. -/
theorem c4_counterexample :
    (runEvents {} [SEvent.errorEvent "boom"]).phase = Phase.errored
  ∧ (runEvents {} [SEvent.errorEvent "boom"]).message = ({} : SessionState).message
  ∧ (runEvents {} [SEvent.errorEvent "boom", SEvent.solution_complete {}]).message ≠
      ({} : SessionState).message := by
  refine ⟨rfl, rfl, ?_⟩
  intro h
  exact Option.noConfusion (congrArg Message.solution h)

/-- Claim C4 (amended).  Once a session is at a terminal phase, no envelope
other than a further `solution_complete` mutates the owning message: the
`StreamingSolutionDisplay` callbacks touch the message only through the
completion path. -/
theorem c4_terminal_frame :
    ∀ (st : SessionState) (e : SEvent),
      TerminalPhase st.phase → (∀ d, e ≠ SEvent.solution_complete d) →
      (applyEvent st e).message = st.message := by
  intro st e _ hnot
  cases e with
  | solution_complete d => exact absurd rfl (hnot d)
  | connected => rfl
  | processing_started m => rfl
  | routing m => rfl
  | routing_result r c m => rfl
  | step_update m p => rfl
  | step_generated k n sd => rfl
  | completion m p => rfl
  | errorEvent m => rfl

/-- Witness for C4: a late `error` envelope after completion leaves the
message untouched. -/
theorem c4_terminal_frame_witness :
    TerminalPhase stC4.phase
  ∧ (applyEvent stC4 (SEvent.errorEvent "late")).message = stC4.message :=
  ⟨Or.inl rfl,
    c4_terminal_frame stC4 (SEvent.errorEvent "late") (Or.inl rfl)
      (fun _ h => SEvent.noConfusion h)⟩

/-! ## C2 — progress monotonicity -/

theorem applyEvent_progress (st : SessionState) (e : SEvent)
    (h : setsProgress e = true) :
    (applyEvent st e).display.progress = progVal e := by
  cases e <;> first | rfl | exact absurd h (by simp [setsProgress])

theorem progressTrace_eq_map :
    ∀ (es : List SEvent) (st : SessionState),
      (∀ e ∈ es, setsProgress e = true) →
      progressTrace st es = st.display.progress :: es.map progVal := by
  intro es
  induction es with
  | nil => intro st _; rfl
  | cons e rest ih =>
    intro st h
    have hrest := ih (applyEvent st e) (fun x hx => h x (List.mem_cons_of_mem e hx))
    simp only [progressTrace, List.map_cons]
    rw [hrest, applyEvent_progress st e (h e (List.mem_cons_self e rest))]

/-- Counterexample for C2: the sequence `esC2` is well-formed — its
`step_update` carries the in-range payload `progress = 30` — yet the observed
progress decreases from 40 to 30, because `onStepUpdate` writes the payload
value through unconditionally. -/
theorem c2_counterexample :
    WellFormedC2 esC2 ∧ ¬ (progressTrace {} esC2).Chain' (· ≤ ·) := by
  constructor
  · refine ⟨none, none, none, none, none, "knowledge_base", 1, some 30, none, 1, sdC2, {},
      le_refl 1, ?_, ?_, ?_, ?_, rfl⟩
    · intro v hv
      injection hv with h
      subst h
      norm_num
    · intro v hv
      exact Option.noConfusion hv
    · norm_num
    · norm_num
  · intro hch
    have htr : progressTrace {} esC2 = 0 :: List.map progVal esC2 :=
      progressTrace_eq_map esC2 {} (by decide)
    rw [htr] at hch
    have hmap : List.map progVal esC2 = [10, 25, 40, 30, 80, 95, 100] := by
      simp [esC2, stepEvents, sdC2, progVal, jsOrQ, List.range_succ, Function.comp]
      norm_num
    rw [hmap] at hch
    simp only [List.chain'_cons] at hch
    exact absurd hch.2.2.2.1 (by norm_num)

set_option maxHeartbeats 1000000 in
/-- Claim C2 (amended).  For every well-formed sequence whose `step_update`
and `completion` events carry no explicit progress payload (so the defaults 50
and 95 apply), the observable progress is non-decreasing from the start
through completion, finishes at 100, and every value it takes is 0, 10, 25,
95, 100, or lies between 40 and 80 during the step phase. -/
theorem c2_progress_monotone :
    ∀ es : List SEvent, WellFormedC2Defaults es →
      (progressTrace {} es).Chain' (· ≤ ·)
      ∧ (progressTrace {} es).getLast? = some 100
      ∧ ∀ v ∈ progressTrace {} es,
          v = 0 ∨ v = 10 ∨ v = 25 ∨ v = 95 ∨ v = 100 ∨ (40 ≤ v ∧ v ≤ 80) := by
  intro es hwf
  obtain ⟨m1, m2, m3, m4, m5, r, c, n, sd, d, hn, hc0, hc1, hes⟩ := hwf
  have hnpos : (0 : ℚ) < (n : ℚ) := by
    exact_mod_cast Nat.lt_of_lt_of_le Nat.zero_lt_one hn
  have hG50 : ∀ k : Nat, (50 : ℚ) ≤ 50 + (((k + 1 : Nat) : ℚ) / (n : ℚ)) * 30 := by
    intro k
    have hpos : (0 : ℚ) ≤ (((k + 1 : Nat) : ℚ) / (n : ℚ)) * 30 := by positivity
    linarith
  have hG80 : ∀ k : Nat, k < n → 50 + (((k + 1 : Nat) : ℚ) / (n : ℚ)) * 30 ≤ 80 := by
    intro k hk
    have hle : ((k + 1 : Nat) : ℚ) ≤ (n : ℚ) := by exact_mod_cast hk
    have hdiv : ((k + 1 : Nat) : ℚ) / (n : ℚ) ≤ 1 := (div_le_one hnpos).mpr hle
    have := mul_le_mul_of_nonneg_right hdiv (by norm_num : (0 : ℚ) ≤ 30)
    linarith
  subst hes
  have hset : ∀ e ∈ ([SEvent.processing_started m1, SEvent.routing m2,
      SEvent.routing_result r c m3, SEvent.step_update m4 none] ++
      stepEvents n sd ++ [SEvent.completion m5 none, SEvent.solution_complete d]),
      setsProgress e = true := by
    intro e he
    simp only [stepEvents, List.mem_append, List.mem_cons, List.mem_map, List.mem_range,
      List.not_mem_nil, or_false] at he
    rcases he with ((rfl | rfl | rfl | rfl) | ⟨k, hk, rfl⟩) | (rfl | rfl) <;> rfl
  rw [progressTrace_eq_map _ {} hset]
  have hmap : ([SEvent.processing_started m1, SEvent.routing m2,
      SEvent.routing_result r c m3, SEvent.step_update m4 none] ++
      stepEvents n sd ++ [SEvent.completion m5 none, SEvent.solution_complete d]).map progVal
      = [10, 25, 40, 50] ++
        (List.range n).map (fun k => 50 + (((k + 1 : Nat) : ℚ) / (n : ℚ)) * 30) ++
        [95, 100] := by
    simp [stepEvents, List.map_append, List.map_map, progVal, jsOrQ, Function.comp]
  rw [hmap]
  have hshape : ({} : SessionState).display.progress ::
      ([10, 25, 40, 50] ++
        (List.range n).map (fun k => 50 + (((k + 1 : Nat) : ℚ) / (n : ℚ)) * 30) ++
        [95, 100])
      = 0 :: 10 :: 25 :: 40 :: 50 ::
        ((List.range n).map (fun k => 50 + (((k + 1 : Nat) : ℚ) / (n : ℚ)) * 30) ++
          [95, 100]) := by
    simp [List.append_assoc]
  rw [hshape]
  have hmem80 : ∀ b ∈ (List.range n).map
      (fun k => 50 + (((k + 1 : Nat) : ℚ) / (n : ℚ)) * 30) ++ ([95, 100] : List ℚ),
      (50 : ℚ) ≤ b ∧ b ≤ 100 := by
    intro b hb
    rcases List.mem_append.mp hb with hb | hb
    · obtain ⟨k, hk, rfl⟩ := List.mem_map.mp hb
      rw [List.mem_range] at hk
      exact ⟨hG50 k, le_trans (hG80 k hk) (by norm_num)⟩
    · simp only [List.mem_cons, List.not_mem_nil, or_false] at hb
      rcases hb with rfl | rfl <;> norm_num
  have hchain : ((List.range n).map
      (fun k => 50 + (((k + 1 : Nat) : ℚ) / (n : ℚ)) * 30) ++ ([95, 100] : List ℚ)).Chain'
      (· ≤ ·) := by
    apply List.Pairwise.chain'
    rw [List.pairwise_append]
    refine ⟨?_, ?_, ?_⟩
    · refine List.Pairwise.map _ ?_ (List.pairwise_lt_range n)
      intro a b hab
      have hcast : ((a + 1 : Nat) : ℚ) ≤ ((b + 1 : Nat) : ℚ) := by
        exact_mod_cast Nat.succ_le_succ (Nat.le_of_lt hab)
      have := mul_le_mul_of_nonneg_right
        ((div_le_div_iff_of_pos_right hnpos).mpr hcast) (by norm_num : (0 : ℚ) ≤ 30)
      linarith
    · simp [List.pairwise_cons]
      norm_num
    · intro x hx y hy
      obtain ⟨k, hk, rfl⟩ := List.mem_map.mp hx
      rw [List.mem_range] at hk
      have h80 := hG80 k hk
      simp only [List.mem_cons, List.not_mem_nil, or_false] at hy
      rcases hy with rfl | rfl <;> linarith
  refine ⟨?_, ?_, ?_⟩
  · refine List.chain'_cons.mpr ⟨by norm_num, ?_⟩
    refine List.chain'_cons.mpr ⟨by norm_num, ?_⟩
    refine List.chain'_cons.mpr ⟨by norm_num, ?_⟩
    refine List.chain'_cons.mpr ⟨by norm_num, ?_⟩
    refine List.chain'_cons'.mpr ⟨?_, hchain⟩
    intro b hb
    exact (hmem80 b (List.mem_of_mem_head? hb)).1
  · have hconcat : (0 :: 10 :: 25 :: 40 :: 50 ::
        ((List.range n).map (fun k => 50 + (((k + 1 : Nat) : ℚ) / (n : ℚ)) * 30) ++
          ([95, 100] : List ℚ)))
        = (0 :: 10 :: 25 :: 40 :: 50 ::
            ((List.range n).map (fun k => 50 + (((k + 1 : Nat) : ℚ) / (n : ℚ)) * 30) ++
              [95])) ++ [100] := by
      simp [List.append_assoc]
    rw [hconcat, List.getLast?_concat]
  · intro v hv
    rcases List.mem_cons.mp hv with rfl | hv
    · exact Or.inl rfl
    rcases List.mem_cons.mp hv with rfl | hv
    · exact Or.inr (Or.inl rfl)
    rcases List.mem_cons.mp hv with rfl | hv
    · exact Or.inr (Or.inr (Or.inl rfl))
    rcases List.mem_cons.mp hv with rfl | hv
    · refine Or.inr (Or.inr (Or.inr (Or.inr (Or.inr ⟨by norm_num, by norm_num⟩))))
    rcases List.mem_cons.mp hv with rfl | hv
    · refine Or.inr (Or.inr (Or.inr (Or.inr (Or.inr ⟨by norm_num, by norm_num⟩))))
    rcases List.mem_append.mp hv with hv | hv
    · obtain ⟨k, hk, rfl⟩ := List.mem_map.mp hv
      rw [List.mem_range] at hk
      refine Or.inr (Or.inr (Or.inr (Or.inr (Or.inr ⟨?_, hG80 k hk⟩))))
      linarith [hG50 k]
    · simp only [List.mem_cons, List.not_mem_nil, or_false] at hv
      rcases hv with rfl | rfl
      · exact Or.inr (Or.inr (Or.inr (Or.inl rfl)))
      · exact Or.inr (Or.inr (Or.inr (Or.inr (Or.inl rfl))))

/-- Witness for C2 at a concrete default-payload run with one step. -/
theorem c2_progress_monotone_witness :
    WellFormedC2Defaults esC2w
  ∧ (progressTrace {} esC2w).Chain' (· ≤ ·)
  ∧ (progressTrace {} esC2w).getLast? = some 100
  ∧ ∀ v ∈ progressTrace {} esC2w,
      v = 0 ∨ v = 10 ∨ v = 25 ∨ v = 95 ∨ v = 100 ∨ (40 ≤ v ∧ v ≤ 80) := by
  have hwf : WellFormedC2Defaults esC2w :=
    ⟨none, none, none, none, none, "knowledge_base", 1, 1, sdC2, {},
      le_refl 1, by norm_num, le_refl 1, rfl⟩
  exact ⟨hwf, c2_progress_monotone esC2w hwf⟩

end MathTutorSpec
